import Mathlib

/-!
# The `syscount` front end (`user/syscount.c`)

A shallow embedding of `main` of `user/syscount.c` and of the Control
Interface it consumes.

`main` is a sequential C program whose only effects are calls into the xv6
user library (`fprintf`, `atoi`, `getSysCount`, `exec`, `exit`) and accesses to
two arrays (`argv`, `cmd_args`).  It is embedded as a function from a trace of
events to a `Step`: either the computation goes on with a value, or the
process has stopped (`exit`, a successful `exec`, or an access outside an
array).  Every array access is checked against the array it goes to and is
recorded in the trace, so that statements about bounds and about the order of
accesses are statements about the trace.

The library functions are not part of the embedded file.  `atoi`, the result
of `getSysCount` and the fate of `exec` are parameters (`Env`).

Values of type `int` are integers.  On the paths that compute with `argc` it
is at least 3, and `argc - 1`, `argc - 2`, `i - 2` and `i + 1` with
`2 <= i < argc` stay within the range of `int`, so no arithmetic of `main`
wraps.  An invocation is well formed when `argv` holds `argc` entries, the
contract under which `main` is called.
-/

namespace Syscount

/-! ## Data model -/

/-- A `char *`: the null pointer or a pointer to a string. -/
inductive Ptr where
  | null
  | str (s : String)
  deriving DecidableEq, Repr

/-- One slot of a `char *` array with automatic storage: `none` while the slot
has not been written. -/
abbrev Cell := Option Ptr

/-- What the process does that can be seen from outside `main`: library
calls, and the accesses to the two arrays. -/
inductive Event where
  | fprintf (fd : Int) (msg : String)
  | getSysCount (mask : Int)
  | exec (path : Ptr) (args : List Cell)
  | load_argv (i : Int)
  | store_cmd (i : Int) (p : Ptr)
  | load_cmd (i : Int)
  deriving DecidableEq, Repr

/-- How a process that does not return from `main` has stopped. -/
inductive Outcome where
  | exited (status : Int)
  | replaced
  | undefined
  deriving DecidableEq, Repr

/-- The state of a computation after some statements: still running with a
value `a`, or stopped.  Both carry the events so far, oldest first. -/
inductive Step (α : Type) where
  | ok (a : α) (trace : List Event)
  | halt (o : Outcome) (trace : List Event)
  deriving Repr

/-- A statement: from the events so far to the state after it. -/
def Prog (α : Type) : Type := List Event → Step α

/-- Sequencing: the second statement runs only if the first has not stopped
the process. -/
def Prog.bind {α β : Type} (m : Prog α) (f : α → Prog β) : Prog β :=
  fun t =>
    match m t with
    | Step.ok a t1 => f a t1
    | Step.halt o t1 => Step.halt o t1

instance : Monad Prog where
  pure := fun a t => Step.ok a t
  bind := Prog.bind

/-- The events of a state. -/
def Step.trace {α : Type} : Step α → List Event
  | Step.ok _ t => t
  | Step.halt _ t => t

/-- The way the process stopped, `none` if it has not. -/
def Step.outcome {α : Type} : Step α → Option Outcome
  | Step.ok _ _ => none
  | Step.halt o _ => some o

/-- The library and kernel behind the calls of `main`: `atoi`, the value the
call `getSysCount(mask)` returns, and what `exec(path, args)` does: `none`
when the image is replaced (the call does not return), `some r` when it
returns `r`. -/
structure Env where
  atoi : String → Int
  getSysCount : Int → Int
  exec : Ptr → List Cell → Option Int

/-! ## Statements -/

/-- Append an event to the trace. -/
def emit (e : Event) : Prog Unit :=
  fun t => Step.ok () (t ++ [e])

/-- The call `exit(status)`: the process stops. -/
def exit {α : Type} (status : Int) : Prog α :=
  fun t => Step.halt (Outcome.exited status) t

/-- An access outside an array, or a read of a slot never written. -/
def undefinedBehaviour {α : Type} : Prog α :=
  fun t => Step.halt Outcome.undefined t

/-- The call `fprintf(fd, msg)` with a format without directives. -/
def fprintf (fd : Int) (msg : String) : Prog Unit :=
  emit (Event.fprintf fd msg)

/-- The read `argv[i]`. -/
def loadArgv (argv : List String) (i : Int) : Prog String := do
  emit (Event.load_argv i)
  if 0 ≤ i then
    match argv[i.toNat]? with
    | some s => pure s
    | none => undefinedBehaviour
  else undefinedBehaviour

/-- The declaration `char *cmd_args[n]`: `n` slots, none written. -/
def declCmdArgs (n : Int) : Prog (List Cell) :=
  if 0 < n then pure (List.replicate n.toNat none) else undefinedBehaviour

/-- The write `cmd_args[i] = p`. -/
def storeCmd (cmd_args : List Cell) (i : Int) (p : Ptr) : Prog (List Cell) := do
  emit (Event.store_cmd i p)
  if 0 ≤ i ∧ i.toNat < cmd_args.length then
    pure (cmd_args.set i.toNat (some p))
  else undefinedBehaviour

/-- The read `cmd_args[i]`. -/
def loadCmd (cmd_args : List Cell) (i : Int) : Prog Ptr := do
  emit (Event.load_cmd i)
  if 0 ≤ i then
    match cmd_args[i.toNat]? with
    | some (some p) => pure p
    | _ => undefinedBehaviour
  else undefinedBehaviour

/-- The call `getSysCount(mask)`. -/
def getSysCount (env : Env) (mask : Int) : Prog Int := do
  emit (Event.getSysCount mask)
  pure (env.getSysCount mask)

/-- The call `exec(path, args)`: it returns only if the image was not
replaced. -/
def exec (env : Env) (path : Ptr) (args : List Cell) : Prog Int := do
  emit (Event.exec path args)
  match env.exec path args with
  | none => fun t => Step.halt Outcome.replaced t
  | some r => pure r

/-- The loop `for (int i = 2; i < argc; i++) cmd_args[i - 2] = argv[i];`
from the value `i` of its counter on. -/
def copyLoop (argc : Int) (argv : List String) (i : Int) (cmd_args : List Cell) :
    Prog (List Cell) :=
  if i < argc then do
    let p ← loadArgv argv i
    let cmd_args ← storeCmd cmd_args (i - 2) (Ptr.str p)
    copyLoop argc argv (i + 1) cmd_args
  else pure cmd_args
termination_by (argc - i).toNat
decreasing_by omega

/-- The function `main` of `user/syscount.c`. -/
def main (env : Env) (argc : Int) (argv : List String) : Prog Int := do
  if argc < 3 then
    fprintf 2 "Usage: syscount <mask> <command> [args]\n"
    exit 1
  let mask := env.atoi (← loadArgv argv 1)
  if (← getSysCount env mask) < 0 then
    fprintf 2 "syscount: getSysCount failed\n"
    exit 1
  let cmd_args ← declCmdArgs (argc - 1)
  let cmd_args ← copyLoop argc argv 2 cmd_args
  let cmd_args ← storeCmd cmd_args (argc - 2) Ptr.null
  let _ ← exec env (← loadCmd cmd_args 0) cmd_args
  exit 0

/-- The run of the front end on an invocation: `main` from the empty trace. -/
def run (env : Env) (argc : Int) (argv : List String) : Step Int :=
  main env argc argv []

/-- The events of the iterations of the copy loop that write the strings `ss`
from slot `k` of `cmd_args` on: iteration `k` reads `argv[k + 2]` and writes
`cmd_args[k]`. -/
def loopEvents : Nat → List String → List Event
  | _, [] => []
  | k, s :: ss =>
    Event.load_argv ((k : Int) + 2) :: Event.store_cmd (k : Int) (Ptr.str s)
      :: loopEvents (k + 1) ss

/-- The argument vector the front end hands to `exec` when it gets that far:
the entries of `argv` from index 2 on, then the null pointer. -/
def cmdArgs (argv : List String) : List Cell :=
  (argv.drop 2).map (fun s => some (Ptr.str s)) ++ [some Ptr.null]

/-- The events of a run that reaches `exec`, up to the call: the read of the
mask argument, the Control Interface call, the copy loop, the terminator and
the read of `cmd_args[0]`. -/
def eventsBeforeExec (argv : List String) (mask : Int) : List Event :=
  [Event.load_argv 1, Event.getSysCount mask] ++ loopEvents 0 (argv.drop 2)
    ++ [Event.store_cmd ((argv.length : Int) - 2) Ptr.null, Event.load_cmd 0]

/-- The events of a run that reaches `exec`, for the mask `mask` and the
path `path`. -/
def execTrace (argv : List String) (mask : Int) (path : Ptr) : List Event :=
  eventsBeforeExec argv mask ++ [Event.exec path (cmdArgs argv)]

/-- The way a run that reaches `exec` stops: the image is replaced, or `exec`
returns and `exit(0)` follows. -/
def execOutcome : Option Int → Outcome
  | none => Outcome.replaced
  | some _ => Outcome.exited 0

/-! ## Reading a trace -/

/-- The event is a call into the library (`fprintf`, `getSysCount`, `exec`) and
not an array access. -/
def isSyscall : Event → Bool
  | Event.fprintf _ _ => true
  | Event.getSysCount _ => true
  | Event.exec _ _ => true
  | _ => false

/-- The library calls of a trace, in order. -/
def syscalls (t : List Event) : List Event := t.filter isSyscall

/-- The event is a call of the Control Interface. -/
def isGetSysCount : Event → Bool
  | Event.getSysCount _ => true
  | _ => false

/-- The event is a call of `exec`. -/
def isExec : Event → Bool
  | Event.exec _ _ => true
  | _ => false

/-- The event is a write to slot `k` of `cmd_args`. -/
def isStoreAt (k : Int) : Event → Bool
  | Event.store_cmd i _ => decide (i = k)
  | _ => false

/-- The front end reports a failure: it writes a message to standard error, or
it exits with a status other than 0. -/
def reportsFailure (r : Step Int) : Prop :=
  (∃ msg, Event.fprintf 2 msg ∈ r.trace) ∨ (∃ s, r.outcome = some (Outcome.exited s) ∧ s ≠ 0)

/-! ## Concrete environments -/

/-- Modelled from the spec: `atoi` of the user library (`user/ulib.c` is not
part of the embedded file).  "Argument 1 parses as a base-10 integer mask":
the value of the leading decimal digits of the string. -/
def atoi (s : String) : Int :=
  (s.toList.takeWhile Char.isDigit).foldl (fun n c => n * 10 + ((c.toNat : Int) - 48)) 0

/-- An environment in which the Control Interface succeeds (no count so far)
and no target can be executed: `exec` returns -1. -/
def envExecFails : Env :=
  { atoi := atoi, getSysCount := fun _ => 0, exec := fun _ _ => some (-1) }

/-- An environment in which the Control Interface succeeds with count `n` and
every target is executed. -/
def envExecReplaces (n : Int) : Env :=
  { atoi := atoi, getSysCount := fun _ => n, exec := fun _ _ => none }

/-- An environment in which the Control Interface fails. -/
def envControlFails : Env :=
  { atoi := atoi, getSysCount := fun _ => -1, exec := fun _ _ => none }

/-! ## The Control Interface, kernel side -/

/-- Modelled from the spec: the counting state of a process (`ProcessContext`,
section 3); the kernel side of `getSysCount` is not part of the embedded file.
A process context "holds exactly one SyscallMask and one CounterTable": the
mask is an integer bitfield, the table gives for each syscall identifier (its
index) a non-negative invocation count. -/
structure ProcessContext where
  mask : Int
  counters : List Nat
  deriving DecidableEq, Repr

/-- Modelled from the spec: bit `i` of a mask, the mask being "interpreted as
an unsigned bitfield" (of a 32-bit `int`). -/
def maskBit (mask : Int) (i : Nat) : Bool :=
  (mask % 2 ^ 32).toNat.testBit i

/-- Modelled from the spec: the counts of the table `cs`, whose first entry is
that of identifier `i`, summed over the identifiers whose bit is set in
`mask`. -/
def matchedFrom (mask : Int) : Nat → List Nat → Nat
  | _, [] => 0
  | i, c :: cs => (if maskBit mask i then c else 0) + matchedFrom mask (i + 1) cs

/-- Modelled from the spec: "the count of syscalls matching the previous
active mask accumulated so far for this process". -/
def matchedCount (p : ProcessContext) : Nat :=
  matchedFrom p.mask 0 p.counters

/-- Modelled from the spec: the Control Interface `setCountingMask(mask)`
(section 4.1), named `getSysCount` in the front end.  Called without a valid
process it returns a negative sentinel; otherwise it "atomically replaces"
the active SyscallMask of the calling process "with the supplied value",
leaves the counts untouched and returns the count matched under the previous
mask. -/
def setCountingMask (proc : Option ProcessContext) (mask : Int) :
    Option ProcessContext × Int :=
  match proc with
  | none => (none, -1)
  | some p => (some { p with mask := mask }, (matchedCount p : Int))

/-- The environment of a front end that runs in the process context `proc`:
its `getSysCount` is the Control Interface. -/
def kernelEnv (atoi1 : String → Int) (exec1 : Ptr → List Cell → Option Int)
    (proc : Option ProcessContext) : Env :=
  { atoi := atoi1, getSysCount := fun mask => (setCountingMask proc mask).2, exec := exec1 }

/-! ## Evaluation lemmas -/

theorem bind_eq {α β : Type} (m : Prog α) (f : α → Prog β) (t : List Event) :
    (m >>= f) t = match m t with
      | Step.ok a t1 => f a t1
      | Step.halt o t1 => Step.halt o t1 := rfl

theorem pure_eq {α : Type} (a : α) (t : List Event) :
    (pure a : Prog α) t = Step.ok a t := rfl

theorem main_usage (env : Env) (argc : Int) (argv : List String) (t : List Event)
    (h : argc < 3) :
    main env argc argv t
      = Step.halt (Outcome.exited 1)
          (t ++ [Event.fprintf 2 "Usage: syscount <mask> <command> [args]\n"]) := by
  simp [main, h, bind_eq, fprintf, emit, exit]

theorem loadArgv_eq (pre : List String) (s : String) (ss : List String) (t : List Event) :
    loadArgv (pre ++ s :: ss) (pre.length : Int) t
      = Step.ok s (t ++ [Event.load_argv (pre.length : Int)]) := by
  have h : (pre ++ s :: ss)[pre.length]? = some s := by
    rw [List.getElem?_append_right (Nat.le_refl _)]; simp
  simp [loadArgv, bind_eq, emit, pure_eq, h]

theorem storeCmd_eq (done : List Ptr) (n : Nat) (p : Ptr) (t : List Event) :
    storeCmd (done.map some ++ List.replicate (n + 1) none) (done.length : Int) p t
      = Step.ok ((done ++ [p]).map some ++ List.replicate n none)
          (t ++ [Event.store_cmd (done.length : Int) p]) := by
  simp [storeCmd, bind_eq, emit, pure_eq, List.replicate_succ]

theorem copyLoop_run (ss : List String) :
    ∀ (pre : List String) (done : List Ptr) (t : List Event),
      pre.length = done.length + 2 →
      copyLoop ((pre.length : Int) + ss.length) (pre ++ ss) (pre.length : Int)
          (done.map some ++ List.replicate (ss.length + 1) none) t
        = Step.ok ((done ++ ss.map Ptr.str).map some ++ [none])
            (t ++ loopEvents done.length ss) := by
  induction ss with
  | nil =>
    intro pre done t _
    rw [copyLoop]
    simp [pure_eq, loopEvents]
  | cons s ss ih =>
    intro pre done t hlen
    rw [copyLoop]
    have hlt : (pre.length : Int) < (pre.length : Int) + ((s :: ss).length : Nat) := by
      simp only [List.length_cons]; omega
    have hidx : (pre.length : Int) - 2 = (done.length : Int) := by omega
    rw [if_pos hlt, bind_eq, loadArgv_eq]
    simp only [hidx]
    rw [bind_eq, List.length_cons, storeCmd_eq]
    have h := ih (pre ++ [s]) (done ++ [Ptr.str s])
      (t ++ [Event.load_argv (pre.length : Int)]
        ++ [Event.store_cmd (done.length : Int) (Ptr.str s)])
      (by simp [hlen])
    simp only [List.length_append, List.length_singleton, List.append_assoc,
      List.singleton_append, Nat.cast_add, Nat.cast_one] at h
    have e : (pre.length : Int) + ((ss.length + 1 : Nat) : Int)
        = (pre.length : Int) + 1 + ss.length := by
      push_cast; omega
    have hk : (done.length : Int) + 2 = (pre.length : Int) := by omega
    rw [e]
    simp only [loopEvents, hk]
    simpa using h

theorem copyLoop_main (a0 a1 a2 : String) (rest : List String) (t : List Event) :
    copyLoop ((rest.length : Int) + 3) (a0 :: a1 :: a2 :: rest) 2
        (List.replicate (rest.length + 2) none) t
      = Step.ok ((a2 :: rest).map (fun s => some (Ptr.str s)) ++ [none])
          (t ++ loopEvents 0 (a2 :: rest)) := by
  have h := copyLoop_run (a2 :: rest) [a0, a1] [] t rfl
  have e : (([a0, a1] : List String).length : Int) + ((a2 :: rest).length : Nat)
      = (rest.length : Int) + 3 := by
    simp only [List.length_cons, List.length_nil]; push_cast; omega
  rw [e] at h
  simpa using h

theorem main_failed (env : Env) (a0 a1 a2 : String) (rest : List String)
    (hneg : env.getSysCount (env.atoi a1) < 0) :
    run env ((rest.length : Int) + 3) (a0 :: a1 :: a2 :: rest)
      = Step.halt (Outcome.exited 1)
          [Event.load_argv 1, Event.getSysCount (env.atoi a1),
            Event.fprintf 2 "syscount: getSysCount failed\n"] := by
  have h3 : ¬ ((rest.length : Int) + 3 < 3) := by omega
  simp [run, main, h3, bind_eq, pure_eq, loadArgv, getSysCount, fprintf, emit, exit, hneg]

theorem storeCmd_last (done : List Ptr) (i : Int) (p : Ptr) (t : List Event)
    (hi : i = (done.length : Int)) :
    storeCmd (done.map some ++ [none]) i p t
      = Step.ok (done.map some ++ [some p]) (t ++ [Event.store_cmd i p]) := by
  subst hi
  have h := storeCmd_eq done 0 p t
  simpa using h

theorem storeCmd_main (a2 : String) (rest : List String) (t : List Event) :
    storeCmd (some (Ptr.str a2) :: (rest.map (fun s => some (Ptr.str s)) ++ [none]))
        ((rest.length : Int) + 3 - 2) Ptr.null t
      = Step.ok (some (Ptr.str a2) :: (rest.map (fun s => some (Ptr.str s)) ++ [some Ptr.null]))
          (t ++ [Event.store_cmd ((rest.length : Int) + 3 - 2) Ptr.null]) := by
  have h := storeCmd_last ((a2 :: rest).map Ptr.str) ((rest.length : Int) + 3 - 2) Ptr.null t
    (by simp only [List.length_map, List.length_cons]; push_cast; omega)
  simpa [Function.comp_def] using h

theorem main_exec (env : Env) (a0 a1 a2 : String) (rest : List String)
    (hpos : 0 ≤ env.getSysCount (env.atoi a1)) :
    run env ((rest.length : Int) + 3) (a0 :: a1 :: a2 :: rest)
      = Step.halt
          (execOutcome (env.exec (Ptr.str a2) (cmdArgs (a0 :: a1 :: a2 :: rest))))
          (execTrace (a0 :: a1 :: a2 :: rest) (env.atoi a1) (Ptr.str a2)) := by
  have h3 : ¬ ((rest.length : Int) + 3 < 3) := by omega
  have hneg : ¬ (env.getSysCount (env.atoi a1) < 0) := by omega
  have hdecl : (0 : Int) < (rest.length : Int) + 3 - 1 := by omega
  have hsz : ((rest.length : Int) + 3 - 1).toNat = rest.length + 2 := by omega
  have hlen : (((rest.length + 1 + 1 + 1 : Nat) : Int)) - 2 = (rest.length : Int) + 3 - 2 := by
    push_cast; omega
  unfold run main
  simp only [h3, if_false, bind_eq, pure_eq, loadArgv, getSysCount, emit, declCmdArgs, hdecl,
    if_true, hsz, copyLoop_main]
  simp only [cmdArgs, execTrace, eventsBeforeExec, List.drop_succ_cons, List.drop_zero,
    List.length_cons, hlen]
  cases hx : env.exec (Ptr.str a2)
      (List.map (fun s => some (Ptr.str s)) (a2 :: rest) ++ [some Ptr.null]) <;>
    simp [hneg, bind_eq, pure_eq, copyLoop_main, storeCmd_main, loadCmd, emit, exec, exit,
      execOutcome] <;> simp at hx <;> simp [hx, pure_eq]

/-! ## Well-formed invocations

An invocation is well formed when `argv` holds `argc` entries. -/

theorem argv_shape (argc : Int) (argv : List String) (hargc : 3 ≤ argc)
    (hargv : (argv.length : Int) = argc) :
    ∃ a0 a1 a2 rest, argv = a0 :: a1 :: a2 :: rest ∧ argc = (rest.length : Int) + 3 := by
  match argv, hargv with
  | [], h => simp at h; omega
  | [_], h => simp at h; omega
  | [_, _], h => simp at h; omega
  | a0 :: a1 :: a2 :: rest, h =>
    refine ⟨a0, a1, a2, rest, rfl, ?_⟩
    simp only [List.length_cons] at h
    push_cast at h
    omega

theorem run_usage (env : Env) (argc : Int) (argv : List String) (hargc : argc < 3) :
    run env argc argv
      = Step.halt (Outcome.exited 1)
          [Event.fprintf 2 "Usage: syscount <mask> <command> [args]\n"] := by
  have h := main_usage env argc argv [] hargc
  simpa [run] using h

theorem run_failed (env : Env) (argc : Int) (argv : List String) (m : String)
    (hargc : 3 ≤ argc) (hargv : (argv.length : Int) = argc) (hm : argv[1]? = some m)
    (hneg : env.getSysCount (env.atoi m) < 0) :
    run env argc argv
      = Step.halt (Outcome.exited 1)
          [Event.load_argv 1, Event.getSysCount (env.atoi m),
            Event.fprintf 2 "syscount: getSysCount failed\n"] := by
  obtain ⟨a0, a1, a2, rest, rfl, rfl⟩ := argv_shape argc argv hargc hargv
  simp only [List.getElem?_cons_succ, List.getElem?_cons_zero, Option.some.injEq] at hm
  subst hm
  exact main_failed env a0 a1 a2 rest hneg

theorem run_exec (env : Env) (argc : Int) (argv : List String) (m c : String)
    (hargc : 3 ≤ argc) (hargv : (argv.length : Int) = argc) (hm : argv[1]? = some m)
    (hc : argv[2]? = some c) (hpos : 0 ≤ env.getSysCount (env.atoi m)) :
    run env argc argv
      = Step.halt (execOutcome (env.exec (Ptr.str c) (cmdArgs argv)))
          (execTrace argv (env.atoi m) (Ptr.str c)) := by
  obtain ⟨a0, a1, a2, rest, rfl, rfl⟩ := argv_shape argc argv hargc hargv
  simp only [List.getElem?_cons_succ, List.getElem?_cons_zero, Option.some.injEq] at hm hc
  subst hm hc
  exact main_exec env a0 a1 a2 rest hpos

theorem run_sign (at1 : String → Int) (ex : Ptr → List Cell → Option Int) (argc : Int)
    (argv : List String) (r1 r2 : Int) (h : r1 < 0 ↔ r2 < 0) :
    run { atoi := at1, getSysCount := fun _ => r1, exec := ex } argc argv
      = run { atoi := at1, getSysCount := fun _ => r2, exec := ex } argc argv := by
  by_cases hargc : argc < 3
  · rw [run_usage _ _ _ hargc, run_usage _ _ _ hargc]
  · unfold run main
    by_cases h1 : r1 < 0
    · have h2 := h.mp h1
      simp only [hargc, if_false, bind_eq, pure_eq, getSysCount, emit, h1, h2, if_true, exec,
        exit, fprintf]
    · have h2 : ¬ r2 < 0 := fun h2 => h1 (h.mpr h2)
      simp only [hargc, if_false, bind_eq, pure_eq, getSysCount, emit, h1, h2, exec]

/-! ## The events of the copy loop -/

theorem mem_loopEvents (e : Event) (ss : List String) :
    ∀ k : Nat, e ∈ loopEvents k ss →
      ∃ (n : Nat) (s : String), ss[n]? = some s ∧
        (e = Event.load_argv ((k : Int) + n + 2)
          ∨ e = Event.store_cmd ((k : Int) + n) (Ptr.str s)) := by
  induction ss with
  | nil => intro k h; simp [loopEvents] at h
  | cons s ss ih =>
    intro k h
    simp only [loopEvents, List.mem_cons] at h
    rcases h with h | h | h
    · exact ⟨0, s, by simp, Or.inl (by simp [h])⟩
    · exact ⟨0, s, by simp, Or.inr (by simp [h])⟩
    · obtain ⟨n, s1, hn, he⟩ := ih (k + 1) h
      refine ⟨n + 1, s1, by simpa using hn, ?_⟩
      rcases he with he | he
      · left; rw [he]; congr 1; push_cast; omega
      · right; rw [he]; congr 1; push_cast; omega

theorem loopEvents_not_syscall (k : Nat) (ss : List String) (e : Event)
    (h : e ∈ loopEvents k ss) : isSyscall e = false := by
  obtain ⟨n, s, _, he | he⟩ := mem_loopEvents e ss k h <;> simp [he, isSyscall]

theorem syscalls_loopEvents (k : Nat) (ss : List String) : syscalls (loopEvents k ss) = [] := by
  simp only [syscalls, List.filter_eq_nil_iff]
  intro e he
  simp [loopEvents_not_syscall k ss e he]

theorem length_loopEvents (ss : List String) :
    ∀ k : Nat, (loopEvents k ss).length = 2 * ss.length := by
  induction ss with
  | nil => intro k; simp [loopEvents]
  | cons s ss ih => intro k; simp [loopEvents, ih]; omega

theorem stores_loopEvents (j : Int) (ss : List String) :
    ∀ k : Nat, ((loopEvents k ss).filter (isStoreAt j)).length
      = if (k : Int) ≤ j ∧ j < (k : Int) + ss.length then 1 else 0 := by
  induction ss with
  | nil =>
    intro k
    have h : ¬ ((k : Int) ≤ j ∧ j < (k : Int)) := by omega
    simp [loopEvents, h]
  | cons s ss ih =>
    intro k
    have hih := ih (k + 1)
    simp only [loopEvents, List.filter_cons, isStoreAt, List.length_cons]
    push_cast at hih ⊢
    by_cases hk : (k : Int) = j
    · have h1 : ¬ ((k : Int) + 1 ≤ j ∧ j < (k : Int) + 1 + ss.length) := by omega
      have h2 : (k : Int) ≤ j ∧ j < (k : Int) + ((ss.length : Int) + 1) := by omega
      rw [if_neg h1] at hih
      simp only [Bool.false_eq_true, if_false, hk, decide_True, if_true, List.length_cons]
      have h3 : j ≤ j ∧ j < j + ((ss.length : Int) + 1) := by omega
      rw [hih, if_pos h3]
    · simp only [Bool.false_eq_true, if_false, hk, decide_False]
      rw [hih]
      by_cases h2 : (k : Int) ≤ j ∧ j < (k : Int) + ((ss.length : Int) + 1)
      · rw [if_pos h2, if_pos (by omega)]
      · rw [if_neg h2, if_neg (by omega)]

theorem filter_loopEvents (f : Event → Bool) (hf : ∀ e, f e = true → isSyscall e = true)
    (k : Nat) (ss : List String) : (loopEvents k ss).filter f = [] := by
  rw [List.filter_eq_nil_iff]
  intro e he hfe
  have h1 := loopEvents_not_syscall k ss e he
  rw [hf e hfe] at h1
  exact Bool.noConfusion h1

theorem isGetSysCount_syscall (e : Event) (h : isGetSysCount e = true) : isSyscall e = true := by
  cases e <;> simp [isGetSysCount, isSyscall] at h ⊢

theorem isExec_syscall (e : Event) (h : isExec e = true) : isSyscall e = true := by
  cases e <;> simp [isExec, isSyscall] at h ⊢

theorem eventsBeforeExec_not_exec (argv : List String) (mask : Int) (e : Event)
    (h : e ∈ eventsBeforeExec argv mask) : isExec e = false := by
  unfold eventsBeforeExec at h
  rw [List.mem_append, List.mem_append] at h
  rcases h with (h | h) | h
  · simp only [List.mem_cons, List.mem_singleton, List.not_mem_nil, or_false] at h
    rcases h with h | h <;> simp [h, isExec]
  · have h1 := loopEvents_not_syscall _ _ e h
    cases hx : isExec e
    · rfl
    · rw [isExec_syscall e hx] at h1; exact Bool.noConfusion h1
  · simp only [List.mem_cons, List.mem_singleton, List.not_mem_nil, or_false] at h
    rcases h with h | h <;> simp [h, isExec]

theorem exec_split (X : List Event) (e : Event) :
    ∀ (pre post : List Event) (path : Ptr) (args : List Cell),
      (∀ x ∈ X, isExec x = false) →
      X ++ [e] = pre ++ Event.exec path args :: post →
      pre = X ∧ e = Event.exec path args ∧ post = [] := by
  induction X with
  | nil =>
    intro pre post path args _ h
    cases pre with
    | nil =>
      simp only [List.nil_append, List.cons.injEq] at h
      exact ⟨rfl, h.1, h.2.symm⟩
    | cons y pre =>
      simp only [List.nil_append, List.cons_append, List.cons.injEq] at h
      have h2 := congrArg List.length h.2
      simp at h2
      omega
  | cons x X ih =>
    intro pre post path args hX h
    cases pre with
    | nil =>
      simp only [List.cons_append, List.nil_append, List.cons.injEq] at h
      have hx := hX x (List.mem_cons_self _ _)
      rw [h.1] at hx
      simp [isExec] at hx
    | cons y pre =>
      simp only [List.cons_append, List.cons.injEq] at h
      obtain ⟨h1, h2, h3⟩ := ih pre post path args
        (fun z hz => hX z (List.mem_cons_of_mem _ hz)) h.2
      exact ⟨by rw [h.1, h1], h2, h3⟩

theorem syscalls_execTrace (argv : List String) (mask : Int) (path : Ptr) :
    syscalls (execTrace argv mask path)
      = [Event.getSysCount mask, Event.exec path (cmdArgs argv)] := by
  have h := syscalls_loopEvents 0 (argv.drop 2)
  simp only [syscalls] at h
  simp [syscalls, execTrace, eventsBeforeExec, List.filter_append, List.filter_cons, isSyscall, h]

theorem control_calls_execTrace (argv : List String) (mask : Int) (path : Ptr) :
    (execTrace argv mask path).filter isGetSysCount = [Event.getSysCount mask] := by
  have h := filter_loopEvents isGetSysCount isGetSysCount_syscall 0 (argv.drop 2)
  simp [execTrace, eventsBeforeExec, List.filter_append, List.filter_cons, isGetSysCount, h]

/-! ## The argument vector -/

theorem cmdArgs_length (argc : Int) (argv : List String) (hargc : 3 ≤ argc)
    (hargv : (argv.length : Int) = argc) : ((cmdArgs argv).length : Int) = argc - 1 := by
  simp only [cmdArgs, List.length_append, List.length_map, List.length_drop,
    List.length_singleton]
  omega

theorem cmdArgs_copy (argv : List String) (k : Nat) (hk : k + 2 < argv.length) :
    ∃ s, argv[k + 2]? = some s ∧ (cmdArgs argv)[k]? = some (some (Ptr.str s)) := by
  refine ⟨argv[k + 2], List.getElem?_eq_getElem hk, ?_⟩
  have hlt : k < ((argv.drop 2).map (fun s => some (Ptr.str s))).length := by
    simp only [List.length_map, List.length_drop]; omega
  unfold cmdArgs
  rw [List.getElem?_append_left hlt, List.getElem?_map, List.getElem?_drop]
  have e : 2 + k = k + 2 := by omega
  rw [e, List.getElem?_eq_getElem hk]
  rfl

theorem cmdArgs_terminator (argv : List String) (n : Nat) (hn : n + 2 = argv.length) :
    (cmdArgs argv)[n]? = some (some Ptr.null) := by
  have hlen : ((argv.drop 2).map (fun s => some (Ptr.str s))).length = n := by
    simp only [List.length_map, List.length_drop]; omega
  unfold cmdArgs
  rw [List.getElem?_append_right (by omega), hlen]
  simp

theorem cmdArgs_written (argv : List String) (k : Nat) (hk : k < (cmdArgs argv).length) :
    ∃ p, (cmdArgs argv)[k]? = some (some p) := by
  have e : cmdArgs argv = ((argv.drop 2).map Ptr.str ++ [Ptr.null]).map some := by
    unfold cmdArgs
    rw [List.map_append, List.map_map]
    rfl
  rw [e] at hk ⊢
  rw [List.length_map] at hk
  exact ⟨((argv.drop 2).map Ptr.str ++ [Ptr.null])[k], by
    rw [List.getElem?_map, List.getElem?_eq_getElem hk]; rfl⟩

/-! ## The array accesses of a run that reaches `exec` -/

theorem mem_execTrace (argv : List String) (mask : Int) (path : Ptr) (e : Event)
    (h : e ∈ execTrace argv mask path) :
    e = Event.load_argv 1 ∨ e = Event.getSysCount mask ∨ e ∈ loopEvents 0 (argv.drop 2)
      ∨ e = Event.store_cmd ((argv.length : Int) - 2) Ptr.null ∨ e = Event.load_cmd 0
      ∨ e = Event.exec path (cmdArgs argv) := by
  simpa [execTrace, eventsBeforeExec, or_assoc] using h

theorem load_argv_execTrace (argv : List String) (mask : Int) (path : Ptr) (i : Int)
    (h : Event.load_argv i ∈ execTrace argv mask path) :
    i = 1 ∨ (2 ≤ i ∧ i < argv.length) := by
  rcases mem_execTrace _ _ _ _ h with h | h | h | h | h | h
  · simp only [Event.load_argv.injEq] at h
    exact Or.inl h
  · exact Event.noConfusion h
  · obtain ⟨n, s, hn, he | he⟩ := mem_loopEvents _ _ 0 h
    · right
      have hlt := (List.getElem?_eq_some_iff.mp hn).1
      simp only [List.length_drop] at hlt
      simp only [Event.load_argv.injEq] at he
      push_cast at he
      omega
    · exact Event.noConfusion he
  · exact Event.noConfusion h
  · exact Event.noConfusion h
  · exact Event.noConfusion h

theorem store_cmd_execTrace (argv : List String) (mask : Int) (path : Ptr) (j : Int)
    (p : Ptr) (h : Event.store_cmd j p ∈ execTrace argv mask path) :
    (j = (argv.length : Int) - 2 ∧ p = Ptr.null)
      ∨ (∃ (i : Nat) (s : String), 2 ≤ i ∧ i < argv.length ∧ j = (i : Int) - 2
          ∧ argv[i]? = some s ∧ p = Ptr.str s) := by
  rcases mem_execTrace _ _ _ _ h with h | h | h | h | h | h
  · exact Event.noConfusion h
  · exact Event.noConfusion h
  · obtain ⟨n, s, hn, he | he⟩ := mem_loopEvents _ _ 0 h
    · exact Event.noConfusion he
    · right
      have hlt := (List.getElem?_eq_some_iff.mp hn).1
      simp only [List.length_drop] at hlt
      simp only [Event.store_cmd.injEq] at he
      rw [List.getElem?_drop] at hn
      refine ⟨2 + n, s, by omega, by omega, ?_, hn, he.2⟩
      rw [he.1]; push_cast; omega
  · simp only [Event.store_cmd.injEq] at h
    exact Or.inl h
  · exact Event.noConfusion h
  · exact Event.noConfusion h

theorem load_cmd_execTrace (argv : List String) (mask : Int) (path : Ptr) (j : Int)
    (h : Event.load_cmd j ∈ execTrace argv mask path) : j = 0 := by
  rcases mem_execTrace _ _ _ _ h with h | h | h | h | h | h
  · exact Event.noConfusion h
  · exact Event.noConfusion h
  · obtain ⟨n, s, _, he | he⟩ := mem_loopEvents _ _ 0 h <;> exact Event.noConfusion he
  · exact Event.noConfusion h
  · simp only [Event.load_cmd.injEq] at h
    exact h
  · exact Event.noConfusion h

theorem stores_eventsBeforeExec (argv : List String) (mask : Int) (k : Nat)
    (hlen : 3 ≤ argv.length) (hk : k + 1 < argv.length) :
    ((eventsBeforeExec argv mask).filter (isStoreAt k)).length = 1 := by
  have hloop := stores_loopEvents (k : Int) (argv.drop 2) 0
  simp only [List.length_drop] at hloop
  unfold eventsBeforeExec
  simp only [List.filter_append, List.length_append, hloop]
  by_cases hlast : k + 2 = argv.length
  · have h1 : ¬ (((0 : Nat) : Int) ≤ (k : Int)
        ∧ (k : Int) < ((0 : Nat) : Int) + ((argv.length - 2 : Nat) : Int)) := by omega
    have h2 : (argv.length : Int) - 2 = (k : Int) := by omega
    simp [List.filter_cons, isStoreAt, h1, h2]
    omega
  · have h1 : ((0 : Nat) : Int) ≤ (k : Int)
        ∧ (k : Int) < ((0 : Nat) : Int) + ((argv.length - 2 : Nat) : Int) := by omega
    have h2 : ¬ ((argv.length : Int) - 2 = (k : Int)) := by omega
    simp [List.filter_cons, isStoreAt, h1, h2]
    omega

theorem copyLoop_zero (argc : Int) (argv : List String) (cells : List Cell) (t : List Event)
    (hargc : argc < 3) : copyLoop argc argv 2 cells t = Step.ok cells t := by
  rw [copyLoop, if_neg (by omega)]
  rfl

theorem copyLoop_events (argc : Int) (argv : List String) (t : List Event)
    (hargv : (argv.length : Int) = argc) :
    ∃ cells, copyLoop argc argv 2 (List.replicate (argc - 1).toNat none) t
      = Step.ok cells (t ++ loopEvents 0 (argv.drop 2)) := by
  by_cases hargc : argc < 3
  · have hdrop : argv.drop 2 = [] := by
      rw [List.drop_eq_nil_iff]; omega
    rw [copyLoop_zero argc argv _ t hargc, hdrop]
    exact ⟨_, by rw [loopEvents, List.append_nil]⟩
  · obtain ⟨a0, a1, a2, rest, rfl, rfl⟩ := argv_shape argc argv (by omega) hargv
    have hsz : ((rest.length : Int) + 3 - 1).toNat = rest.length + 2 := by omega
    rw [hsz, copyLoop_main]
    exact ⟨_, rfl⟩

theorem getSysCount_execTrace (argv : List String) (mask : Int) (path : Ptr) (k : Int)
    (h : Event.getSysCount k ∈ execTrace argv mask path) : k = mask := by
  rcases mem_execTrace _ _ _ _ h with h | h | h | h | h | h
  · exact Event.noConfusion h
  · simp only [Event.getSysCount.injEq] at h
    exact h
  · obtain ⟨n, s, _, he | he⟩ := mem_loopEvents _ _ 0 h <;> exact Event.noConfusion he
  · exact Event.noConfusion h
  · exact Event.noConfusion h
  · exact Event.noConfusion h

theorem run_control_calls (env : Env) (argc : Int) (argv : List String) (m : String)
    (hargc : 3 ≤ argc) (hargv : (argv.length : Int) = argc) (hm : argv[1]? = some m) :
    (run env argc argv).trace.filter isGetSysCount = [Event.getSysCount (env.atoi m)] := by
  obtain ⟨a0, a1, a2, rest, hshape, _⟩ := argv_shape argc argv hargc hargv
  have hc : argv[2]? = some a2 := by rw [hshape]; simp
  by_cases hneg : env.getSysCount (env.atoi m) < 0
  · rw [run_failed env argc argv m hargc hargv hm hneg]
    simp [Step.trace, isGetSysCount]
  · rw [run_exec env argc argv m a2 hargc hargv hm hc (by omega)]
    exact control_calls_execTrace _ _ _

theorem fprintf_not_mem_execTrace (argv : List String) (mask : Int) (path : Ptr) (fd : Int)
    (msg : String) : Event.fprintf fd msg ∉ execTrace argv mask path := by
  intro hmem
  have h1 : isSyscall (Event.fprintf fd msg) = true := rfl
  have h2 : Event.fprintf fd msg ∈ syscalls (execTrace argv mask path) := by
    simp only [syscalls, List.mem_filter]
    exact ⟨hmem, h1⟩
  rw [syscalls_execTrace] at h2
  simp at h2

/-! ## The front end: error paths -/

/-- C1: with `argc < 3`, whatever `argv` holds, the run of `main` is the one
write of the usage message to file descriptor 2 followed by `exit(1)`; the
trace holds no call of `getSysCount` and no call of `exec`. -/
theorem usage_error_exits_1 (env : Env) (argc : Int) (argv : List String)
    (hargc : argc < 3) :
    run env argc argv
        = Step.halt (Outcome.exited 1)
            [Event.fprintf 2 "Usage: syscount <mask> <command> [args]\n"]
      ∧ (∀ mask, Event.getSysCount mask ∉ (run env argc argv).trace)
      ∧ (∀ path args, Event.exec path args ∉ (run env argc argv).trace) := by
  rw [run_usage env argc argv hargc]
  simp [Step.trace]

/-- The usage error at `syscount` run with no further argument. -/
theorem usage_error_exits_1_witness :
    (1 : Int) < 3
      ∧ run envExecFails 1 ["syscount"]
          = Step.halt (Outcome.exited 1)
              [Event.fprintf 2 "Usage: syscount <mask> <command> [args]\n"]
      ∧ (∀ mask, Event.getSysCount mask ∉ (run envExecFails 1 ["syscount"]).trace)
      ∧ (∀ path args, Event.exec path args ∉ (run envExecFails 1 ["syscount"]).trace) :=
  ⟨by decide, usage_error_exits_1 envExecFails 1 ["syscount"] (by decide)⟩

/-- C2: on a well-formed invocation with `argc >= 3` for which the call
`getSysCount(atoi(argv[1]))` returns a negative value, `main` writes
"syscount: getSysCount failed" to file descriptor 2 and stops with `exit(1)`;
`exec` is not called. -/
theorem control_failure_exits_1 (env : Env) (argc : Int) (argv : List String) (m : String)
    (hargc : 3 ≤ argc) (hargv : (argv.length : Int) = argc) (hm : argv[1]? = some m)
    (hneg : env.getSysCount (env.atoi m) < 0) :
    run env argc argv
        = Step.halt (Outcome.exited 1)
            [Event.load_argv 1, Event.getSysCount (env.atoi m),
              Event.fprintf 2 "syscount: getSysCount failed\n"]
      ∧ (∀ path args, Event.exec path args ∉ (run env argc argv).trace) := by
  rw [run_failed env argc argv m hargc hargv hm hneg]
  simp [Step.trace]

/-- The Control Interface failure at `syscount 99 ls`. -/
theorem control_failure_exits_1_witness :
    run envControlFails 3 ["syscount", "99", "ls"]
        = Step.halt (Outcome.exited 1)
            [Event.load_argv 1, Event.getSysCount (envControlFails.atoi "99"),
              Event.fprintf 2 "syscount: getSysCount failed\n"]
      ∧ (∀ path args,
          Event.exec path args ∉ (run envControlFails 3 ["syscount", "99", "ls"]).trace) :=
  control_failure_exits_1 envControlFails 3 ["syscount", "99", "ls"] "99"
    (by decide) (by decide) (by decide) (by decide)

/-! ## The front end: the path to `exec` -/

/-- C3: on a well-formed invocation with `argc >= 3` for which `getSysCount`
returns a non-negative value, the trace ends with the one call of `exec`; its
path is `argv[2]` and its argument vector is the entries of `argv` from index
2 on, in order, followed by the null pointer: `argc - 1` slots, slot `k`
holding `argv[k + 2]` for `k < argc - 2`, slot `argc - 2` holding null. -/
theorem exec_argument_vector (env : Env) (argc : Int) (argv : List String) (m c : String)
    (hargc : 3 ≤ argc) (hargv : (argv.length : Int) = argc) (hm : argv[1]? = some m)
    (hc : argv[2]? = some c) (hpos : 0 ≤ env.getSysCount (env.atoi m)) :
    ∃ (pre : List Event) (args : List Cell),
      (run env argc argv).trace = pre ++ [Event.exec (Ptr.str c) args]
        ∧ (∀ e ∈ pre, isExec e = false)
        ∧ args = (argv.drop 2).map (fun s => some (Ptr.str s)) ++ [some Ptr.null]
        ∧ (args.length : Int) = argc - 1
        ∧ (∀ k : Nat, (k : Int) < argc - 2 →
            ∃ s, argv[k + 2]? = some s ∧ args[k]? = some (some (Ptr.str s)))
        ∧ args[(argc - 2).toNat]? = some (some Ptr.null) := by
  refine ⟨eventsBeforeExec argv (env.atoi m), cmdArgs argv, ?_, ?_, rfl, ?_, ?_, ?_⟩
  · rw [run_exec env argc argv m c hargc hargv hm hc hpos]
    rfl
  · exact fun e he => eventsBeforeExec_not_exec argv (env.atoi m) e he
  · exact cmdArgs_length argc argv hargc hargv
  · intro k hk
    exact cmdArgs_copy argv k (by omega)
  · exact cmdArgs_terminator argv (argc - 2).toNat (by omega)

/-- The argument vector at `syscount 1 echo hi`. -/
theorem exec_argument_vector_witness :
    ∃ (pre : List Event) (args : List Cell),
      (run (envExecReplaces 0) 4 ["syscount", "1", "echo", "hi"]).trace
          = pre ++ [Event.exec (Ptr.str "echo") args]
        ∧ (∀ e ∈ pre, isExec e = false)
        ∧ args = ((["syscount", "1", "echo", "hi"] : List String).drop 2).map
            (fun s => some (Ptr.str s)) ++ [some Ptr.null]
        ∧ (args.length : Int) = 4 - 1
        ∧ (∀ k : Nat, (k : Int) < 4 - 2 →
            ∃ s, (["syscount", "1", "echo", "hi"] : List String)[k + 2]? = some s
              ∧ args[k]? = some (some (Ptr.str s)))
        ∧ args[((4 : Int) - 2).toNat]? = some (some Ptr.null) :=
  exec_argument_vector (envExecReplaces 0) 4 ["syscount", "1", "echo", "hi"] "1" "echo"
    (by decide) (by decide) (by decide) (by decide) (by decide)

/-- C4: on a well-formed invocation with `argc >= 3` the front end calls
`getSysCount` exactly once, with `atoi(argv[1])`, and before any call of
`exec`; when that call returns a non-negative value the library calls of the
run are exactly `getSysCount(atoi(argv[1]))` followed by
`exec(argv[2], cmd_args)`. -/
theorem control_call_once_then_exec (env : Env) (argc : Int) (argv : List String)
    (m c : String) (hargc : 3 ≤ argc) (hargv : (argv.length : Int) = argc)
    (hm : argv[1]? = some m) (hc : argv[2]? = some c) :
    (run env argc argv).trace.filter isGetSysCount = [Event.getSysCount (env.atoi m)]
      ∧ (∀ pre path args post,
          (run env argc argv).trace = pre ++ Event.exec path args :: post →
            Event.getSysCount (env.atoi m) ∈ pre)
      ∧ (0 ≤ env.getSysCount (env.atoi m) →
          syscalls (run env argc argv).trace
            = [Event.getSysCount (env.atoi m), Event.exec (Ptr.str c) (cmdArgs argv)]) := by
  by_cases hneg : env.getSysCount (env.atoi m) < 0
  · rw [run_failed env argc argv m hargc hargv hm hneg]
    refine ⟨by simp [Step.trace, isGetSysCount], ?_, fun h => absurd hneg (by omega)⟩
    intro pre path args post h
    have hmem : Event.exec path args ∈
        [Event.load_argv 1, Event.getSysCount (env.atoi m),
          Event.fprintf 2 "syscount: getSysCount failed\n"] := by
      simp only [Step.trace] at h
      rw [h]; simp
    simp at hmem
  · have hpos : 0 ≤ env.getSysCount (env.atoi m) := by omega
    rw [run_exec env argc argv m c hargc hargv hm hc hpos]
    refine ⟨control_calls_execTrace _ _ _, ?_, fun _ => syscalls_execTrace _ _ _⟩
    intro pre path args post h
    simp only [Step.trace, execTrace] at h
    obtain ⟨h1, _, _⟩ := exec_split _ _ pre post path args
      (fun e he => eventsBeforeExec_not_exec argv (env.atoi m) e he) h
    rw [h1]
    simp [eventsBeforeExec]

/-- The library calls at `syscount 7 ls`. -/
theorem control_call_once_then_exec_witness :
    (run (envExecReplaces 0) 3 ["syscount", "7", "ls"]).trace.filter isGetSysCount
        = [Event.getSysCount ((envExecReplaces 0).atoi "7")]
      ∧ (∀ pre path args post,
          (run (envExecReplaces 0) 3 ["syscount", "7", "ls"]).trace
              = pre ++ Event.exec path args :: post →
            Event.getSysCount ((envExecReplaces 0).atoi "7") ∈ pre)
      ∧ (0 ≤ (envExecReplaces 0).getSysCount ((envExecReplaces 0).atoi "7") →
          syscalls (run (envExecReplaces 0) 3 ["syscount", "7", "ls"]).trace
            = [Event.getSysCount ((envExecReplaces 0).atoi "7"),
                Event.exec (Ptr.str "ls") (cmdArgs ["syscount", "7", "ls"])]) :=
  control_call_once_then_exec (envExecReplaces 0) 3 ["syscount", "7", "ls"] "7" "ls"
    (by decide) (by decide) (by decide) (by decide)

/-- C5: on a well-formed invocation with `argc >= 3` for which `getSysCount`
returns a non-negative value and `exec` returns to its caller, the front end
stops with `exit(0)` and its trace holds no `fprintf` at all: nothing is
written to standard error or standard output. -/
theorem exec_failure_exits_0 (env : Env) (argc : Int) (argv : List String) (m c : String)
    (r : Int) (hargc : 3 ≤ argc) (hargv : (argv.length : Int) = argc)
    (hm : argv[1]? = some m) (hc : argv[2]? = some c)
    (hpos : 0 ≤ env.getSysCount (env.atoi m))
    (hret : env.exec (Ptr.str c) (cmdArgs argv) = some r) :
    (run env argc argv).outcome = some (Outcome.exited 0)
      ∧ (∀ fd msg, Event.fprintf fd msg ∉ (run env argc argv).trace) := by
  rw [run_exec env argc argv m c hargc hargv hm hc hpos, hret]
  refine ⟨rfl, ?_⟩
  intro fd msg hmem
  have h1 : isSyscall (Event.fprintf fd msg) = true := rfl
  have h2 : Event.fprintf fd msg ∈ syscalls (execTrace argv (env.atoi m) (Ptr.str c)) := by
    simp only [syscalls, List.mem_filter]
    exact ⟨hmem, h1⟩
  rw [syscalls_execTrace] at h2
  simp at h2

/-- The silent exit at `syscount 99 nonexistent-binary`. -/
theorem exec_failure_exits_0_witness :
    (run envExecFails 3 ["syscount", "99", "nonexistent-binary"]).outcome
        = some (Outcome.exited 0)
      ∧ (∀ fd msg, Event.fprintf fd msg
          ∉ (run envExecFails 3 ["syscount", "99", "nonexistent-binary"]).trace) :=
  exec_failure_exits_0 envExecFails 3 ["syscount", "99", "nonexistent-binary"] "99"
    "nonexistent-binary" (-1) (by decide) (by decide) (by decide) (by decide) (by decide)
    (by rfl)

/-- C8: the count the Control Interface returns is ignored.  With `argc >= 3`,
two runs that differ only in the non-negative value `getSysCount` returns are
equal, trace and outcome; more generally two runs are equal as soon as the two
values have the same sign. -/
theorem returned_count_ignored (atoi1 : String → Int) (exec1 : Ptr → List Cell → Option Int)
    (argc : Int) (argv : List String) (r1 r2 : Int) (hargc : 3 ≤ argc) :
    (0 ≤ r1 → 0 ≤ r2 →
        run { atoi := atoi1, getSysCount := fun _ => r1, exec := exec1 } argc argv
          = run { atoi := atoi1, getSysCount := fun _ => r2, exec := exec1 } argc argv)
      ∧ ((r1 < 0 ↔ r2 < 0) →
        run { atoi := atoi1, getSysCount := fun _ => r1, exec := exec1 } argc argv
          = run { atoi := atoi1, getSysCount := fun _ => r2, exec := exec1 } argc argv) := by
  have _ := hargc
  exact ⟨fun h1 h2 => run_sign atoi1 exec1 argc argv r1 r2 (by omega),
    fun h => run_sign atoi1 exec1 argc argv r1 r2 h⟩

/-- The returned counts 0 and 5 at `syscount 1 echo hi`. -/
theorem returned_count_ignored_witness :
    (3 : Int) ≤ 4
      ∧ ((0 : Int) ≤ 0 → (0 : Int) ≤ 5 →
        run { atoi := atoi, getSysCount := fun _ => 0, exec := fun _ _ => some (-1) }
            4 ["syscount", "1", "echo", "hi"]
          = run { atoi := atoi, getSysCount := fun _ => 5, exec := fun _ _ => some (-1) }
            4 ["syscount", "1", "echo", "hi"])
      ∧ (((0 : Int) < 0 ↔ (5 : Int) < 0) →
        run { atoi := atoi, getSysCount := fun _ => 0, exec := fun _ _ => some (-1) }
            4 ["syscount", "1", "echo", "hi"]
          = run { atoi := atoi, getSysCount := fun _ => 5, exec := fun _ _ => some (-1) }
            4 ["syscount", "1", "echo", "hi"]) :=
  ⟨by decide, returned_count_ignored atoi (fun _ _ => some (-1)) 4
    ["syscount", "1", "echo", "hi"] 0 5 (by decide)⟩

/-! ## Bounds and termination -/

/-- C9: on a well-formed invocation (`argv` holds `argc` entries) no access of
`main` leaves its array.  The checked run never stops on an undefined access;
`argv[i]` is read only with `argc >= 3` and `0 <= i < argc`; `cmd_args` is
written only at the index `argc - 2` (the terminator) and at indices `i - 2`
with `2 <= i < argc` (the copy of `argv[i]`), all within its `argc - 1` slots;
`cmd_args` is read only at index 0; and when `exec` is called its vector has
`argc - 1` slots, each written exactly once before the call. -/
theorem array_accesses_in_bounds (env : Env) (argc : Int) (argv : List String)
    (hargv : (argv.length : Int) = argc) :
    (run env argc argv).outcome ≠ some Outcome.undefined
      ∧ (∀ i, Event.load_argv i ∈ (run env argc argv).trace → 3 ≤ argc ∧ 0 ≤ i ∧ i < argc)
      ∧ (∀ j p, Event.store_cmd j p ∈ (run env argc argv).trace →
          0 ≤ j ∧ j < argc - 1
            ∧ ((j = argc - 2 ∧ p = Ptr.null)
              ∨ ∃ (i : Nat) (s : String), 2 ≤ (i : Int) ∧ (i : Int) < argc ∧ j = (i : Int) - 2
                  ∧ argv[i]? = some s ∧ p = Ptr.str s))
      ∧ (∀ j, Event.load_cmd j ∈ (run env argc argv).trace → 0 ≤ j ∧ j < argc - 1)
      ∧ (∀ pre path args post,
          (run env argc argv).trace = pre ++ Event.exec path args :: post →
            (args.length : Int) = argc - 1
              ∧ ∀ k : Nat, k < args.length →
                  (pre.filter (isStoreAt k)).length = 1 ∧ ∃ p, args[k]? = some (some p)) := by
  by_cases hargc : argc < 3
  · rw [run_usage env argc argv hargc]
    refine ⟨by simp [Step.outcome], by simp [Step.trace], by simp [Step.trace],
      by simp [Step.trace], ?_⟩
    intro pre path args post h
    have hmem : Event.exec path args ∈
        [Event.fprintf 2 "Usage: syscount <mask> <command> [args]\n"] := by
      simp only [Step.trace] at h
      rw [h]; simp
    simp at hmem
  · have h3 : 3 ≤ argc := by omega
    obtain ⟨a0, a1, a2, rest, hshape, hlen⟩ := argv_shape argc argv h3 hargv
    have hm : argv[1]? = some a1 := by rw [hshape]; simp
    have hc : argv[2]? = some a2 := by rw [hshape]; simp
    by_cases hneg : env.getSysCount (env.atoi a1) < 0
    · rw [run_failed env argc argv a1 h3 hargv hm hneg]
      refine ⟨by simp [Step.outcome], ?_, by simp [Step.trace], by simp [Step.trace], ?_⟩
      · intro i hi
        simp only [Step.trace, List.mem_cons, Event.load_argv.injEq, List.mem_singleton,
          List.not_mem_nil, or_false] at hi
        rcases hi with hi | hi | hi
        · omega
        · exact Event.noConfusion hi
        · exact Event.noConfusion hi
      · intro pre path args post h
        have hmem : Event.exec path args ∈
            [Event.load_argv 1, Event.getSysCount (env.atoi a1),
              Event.fprintf 2 "syscount: getSysCount failed\n"] := by
          simp only [Step.trace] at h
          rw [h]; simp
        simp at hmem
    · have hpos : 0 ≤ env.getSysCount (env.atoi a1) := by omega
      rw [run_exec env argc argv a1 a2 h3 hargv hm hc hpos]
      simp only [Step.trace]
      refine ⟨?_, ?_, ?_, ?_, ?_⟩
      · cases env.exec (Ptr.str a2) (cmdArgs argv) <;> simp [Step.outcome, execOutcome]
      · intro i hi
        rcases load_argv_execTrace _ _ _ _ hi with h | h <;> omega
      · intro j p hj
        rcases store_cmd_execTrace _ _ _ _ _ hj with h | ⟨i, s, h1, h2, h3, h4, h5⟩
        · exact ⟨by omega, by omega, Or.inl ⟨by omega, h.2⟩⟩
        · exact ⟨by omega, by omega, Or.inr ⟨i, s, by omega, by omega, h3, h4, h5⟩⟩
      · intro j hj
        have h := load_cmd_execTrace _ _ _ _ hj
        omega
      · intro pre path args post h
        simp only [execTrace] at h
        obtain ⟨h1, h2, _⟩ := exec_split _ _ pre post path args
          (fun e he => eventsBeforeExec_not_exec argv (env.atoi a1) e he) h
        simp only [Event.exec.injEq] at h2
        rw [h1, ← h2.2]
        refine ⟨cmdArgs_length argc argv h3 hargv, ?_⟩
        intro k hk
        have hk2 := cmdArgs_length argc argv h3 hargv
        exact ⟨stores_eventsBeforeExec argv (env.atoi a1) k (by omega) (by omega),
          cmdArgs_written argv k hk⟩

/-- The array accesses at `syscount 1 echo hi`. -/
theorem array_accesses_in_bounds_witness :
    (run envExecFails 4 ["syscount", "1", "echo", "hi"]).outcome ≠ some Outcome.undefined
      ∧ (∀ i, Event.load_argv i ∈ (run envExecFails 4 ["syscount", "1", "echo", "hi"]).trace →
          (3 : Int) ≤ 4 ∧ 0 ≤ i ∧ i < 4)
      ∧ (∀ j p,
          Event.store_cmd j p ∈ (run envExecFails 4 ["syscount", "1", "echo", "hi"]).trace →
          0 ≤ j ∧ j < 4 - 1
            ∧ ((j = 4 - 2 ∧ p = Ptr.null)
              ∨ ∃ (i : Nat) (s : String), 2 ≤ (i : Int) ∧ (i : Int) < 4 ∧ j = (i : Int) - 2
                  ∧ (["syscount", "1", "echo", "hi"] : List String)[i]? = some s
                  ∧ p = Ptr.str s))
      ∧ (∀ j, Event.load_cmd j ∈ (run envExecFails 4 ["syscount", "1", "echo", "hi"]).trace →
          0 ≤ j ∧ j < 4 - 1)
      ∧ (∀ pre path args post,
          (run envExecFails 4 ["syscount", "1", "echo", "hi"]).trace
              = pre ++ Event.exec path args :: post →
            (args.length : Int) = 4 - 1
              ∧ ∀ k : Nat, k < args.length →
                  (pre.filter (isStoreAt k)).length = 1 ∧ ∃ p, args[k]? = some (some p)) :=
  array_accesses_in_bounds envExecFails 4 ["syscount", "1", "echo", "hi"] (by decide)

/-- C10: on a well-formed invocation `main` never returns: the run (a total
function of the invocation and of the behaviour of `getSysCount` and `exec`)
stops with `exit(1)`, with the image replaced, or with `exit(0)`, and with
nothing else.  An exit status of the front end is 0 or 1, and it is 1 exactly
when `argc < 3` or a call of `getSysCount` returned a negative value.  The copy
loop, started as `main` starts it, comes to its end after one iteration (a
read of `argv` and a write of `cmd_args`) for each entry of `argv` from index
2 on, that is after `max(argc - 2, 0)` iterations. -/
theorem main_stops_by_exit_or_exec (env : Env) (argc : Int) (argv : List String)
    (hargv : (argv.length : Int) = argc) :
    (∀ v t, run env argc argv ≠ Step.ok v t)
      ∧ ((run env argc argv).outcome = some (Outcome.exited 1)
          ∨ (run env argc argv).outcome = some Outcome.replaced
          ∨ (run env argc argv).outcome = some (Outcome.exited 0))
      ∧ (∀ status, (run env argc argv).outcome = some (Outcome.exited status) →
          status = 0 ∨ status = 1)
      ∧ ((run env argc argv).outcome = some (Outcome.exited 1) ↔
          (argc < 3 ∨ ∃ mask, Event.getSysCount mask ∈ (run env argc argv).trace
            ∧ env.getSysCount mask < 0))
      ∧ (∀ t, ∃ cells, copyLoop argc argv 2 (List.replicate (argc - 1).toNat none) t
          = Step.ok cells (t ++ loopEvents 0 (argv.drop 2)))
      ∧ ((argv.drop 2).length : Int) = max (argc - 2) 0
      ∧ (loopEvents 0 (argv.drop 2)).length = 2 * (argv.drop 2).length := by
  have hloop : (∀ t, ∃ cells, copyLoop argc argv 2 (List.replicate (argc - 1).toNat none) t
        = Step.ok cells (t ++ loopEvents 0 (argv.drop 2)))
      ∧ ((argv.drop 2).length : Int) = max (argc - 2) 0
      ∧ (loopEvents 0 (argv.drop 2)).length = 2 * (argv.drop 2).length := by
    refine ⟨fun t => copyLoop_events argc argv t hargv, ?_, length_loopEvents _ 0⟩
    simp only [List.length_drop]
    omega
  by_cases hargc : argc < 3
  · rw [run_usage env argc argv hargc]
    refine ⟨fun v t h => Step.noConfusion h, Or.inl rfl, ?_, ?_, hloop⟩
    · intro status h
      simp only [Step.outcome, Option.some.injEq, Outcome.exited.injEq] at h
      exact Or.inr h.symm
    · exact ⟨fun _ => Or.inl hargc, fun _ => rfl⟩
  · have h3 : 3 ≤ argc := by omega
    obtain ⟨a0, a1, a2, rest, hshape, hlen⟩ := argv_shape argc argv h3 hargv
    have hm : argv[1]? = some a1 := by rw [hshape]; simp
    have hc : argv[2]? = some a2 := by rw [hshape]; simp
    by_cases hneg : env.getSysCount (env.atoi a1) < 0
    · rw [run_failed env argc argv a1 h3 hargv hm hneg]
      refine ⟨fun v t h => Step.noConfusion h, Or.inl rfl, ?_, ?_, hloop⟩
      · intro status h
        simp only [Step.outcome, Option.some.injEq, Outcome.exited.injEq] at h
        exact Or.inr h.symm
      · exact ⟨fun _ => Or.inr ⟨env.atoi a1, by simp [Step.trace], hneg⟩, fun _ => rfl⟩
    · have hpos : 0 ≤ env.getSysCount (env.atoi a1) := by omega
      rw [run_exec env argc argv a1 a2 h3 hargv hm hc hpos]
      refine ⟨fun v t h => Step.noConfusion h, ?_, ?_, ?_, hloop⟩
      · cases env.exec (Ptr.str a2) (cmdArgs argv)
        · exact Or.inr (Or.inl rfl)
        · exact Or.inr (Or.inr rfl)
      · intro status h
        cases hx : env.exec (Ptr.str a2) (cmdArgs argv) <;>
          simp [hx, Step.outcome, execOutcome] at h
        exact Or.inl h.symm
      · constructor
        · intro h
          cases hx : env.exec (Ptr.str a2) (cmdArgs argv) <;>
            simp [hx, Step.outcome, execOutcome] at h
        · rintro (h | ⟨mask, hmem, hlt⟩)
          · omega
          · simp only [Step.trace] at hmem
            have hk := getSysCount_execTrace _ _ _ _ hmem
            rw [hk] at hlt
            omega

/-- The ways to stop at `syscount 1 echo hi`. -/
theorem main_stops_by_exit_or_exec_witness :
    (∀ v t, run (envExecReplaces 3) 4 ["syscount", "1", "echo", "hi"] ≠ Step.ok v t)
      ∧ ((run (envExecReplaces 3) 4 ["syscount", "1", "echo", "hi"]).outcome
            = some (Outcome.exited 1)
          ∨ (run (envExecReplaces 3) 4 ["syscount", "1", "echo", "hi"]).outcome
            = some Outcome.replaced
          ∨ (run (envExecReplaces 3) 4 ["syscount", "1", "echo", "hi"]).outcome
            = some (Outcome.exited 0))
      ∧ (∀ status,
          (run (envExecReplaces 3) 4 ["syscount", "1", "echo", "hi"]).outcome
              = some (Outcome.exited status) →
            status = 0 ∨ status = 1)
      ∧ ((run (envExecReplaces 3) 4 ["syscount", "1", "echo", "hi"]).outcome
            = some (Outcome.exited 1) ↔
          ((4 : Int) < 3 ∨ ∃ mask,
            Event.getSysCount mask
                ∈ (run (envExecReplaces 3) 4 ["syscount", "1", "echo", "hi"]).trace
              ∧ (envExecReplaces 3).getSysCount mask < 0))
      ∧ (∀ t, ∃ cells,
          copyLoop 4 ["syscount", "1", "echo", "hi"] 2
              (List.replicate ((4 : Int) - 1).toNat none) t
            = Step.ok cells
                (t ++ loopEvents 0 ((["syscount", "1", "echo", "hi"] : List String).drop 2)))
      ∧ ((((["syscount", "1", "echo", "hi"] : List String).drop 2).length : Nat) : Int)
          = max (4 - 2) 0
      ∧ (loopEvents 0 ((["syscount", "1", "echo", "hi"] : List String).drop 2)).length
          = 2 * ((["syscount", "1", "echo", "hi"] : List String).drop 2).length :=
  main_stops_by_exit_or_exec (envExecReplaces 3) 4 ["syscount", "1", "echo", "hi"]
    (by decide)

/-! ## Replacement failure -/

/-- C6, as stated, fails: for `syscount 99 nonexistent-binary`, with a Control
Interface that succeeds and an `exec` that returns -1, the front end calls
`getSysCount(99)` and `exec`, writes no message and stops with `exit(0)`: the
replacement failure is not reported. -/
theorem replacement_failure_reported_counterexample :
    run envExecFails 3 ["syscount", "99", "nonexistent-binary"]
        = Step.halt (Outcome.exited 0)
            [Event.load_argv 1, Event.getSysCount 99, Event.load_argv 2,
              Event.store_cmd 0 (Ptr.str "nonexistent-binary"), Event.store_cmd 1 Ptr.null,
              Event.load_cmd 0,
              Event.exec (Ptr.str "nonexistent-binary")
                [some (Ptr.str "nonexistent-binary"), some Ptr.null]]
      ∧ ¬ reportsFailure (run envExecFails 3 ["syscount", "99", "nonexistent-binary"]) := by
  have h : run envExecFails 3 ["syscount", "99", "nonexistent-binary"]
      = Step.halt (Outcome.exited 0)
          [Event.load_argv 1, Event.getSysCount 99, Event.load_argv 2,
            Event.store_cmd 0 (Ptr.str "nonexistent-binary"), Event.store_cmd 1 Ptr.null,
            Event.load_cmd 0,
            Event.exec (Ptr.str "nonexistent-binary")
              [some (Ptr.str "nonexistent-binary"), some Ptr.null]] := by
    rw [run_exec envExecFails 3 ["syscount", "99", "nonexistent-binary"] "99"
      "nonexistent-binary" (by decide) (by decide) (by decide) (by decide) (by decide)]
    rfl
  refine ⟨h, ?_⟩
  rw [h]
  rintro (⟨msg, hmsg⟩ | ⟨status, hstatus, hne⟩)
  · simp [Step.trace] at hmsg
  · simp only [Step.outcome, Option.some.injEq, Outcome.exited.injEq] at hstatus
    exact hne hstatus.symm

/-- C6, amended: on a well-formed invocation with `argc >= 3` whose target
cannot be executed (`exec` returns), the Control Interface is called with the
parsed mask `atoi(argv[1])`, and that call is the same, with the same result,
for every other target (any well-formed invocation with the same `argv[1]`);
when it succeeds, the front end stops with `exit(0)` and reports no
failure. -/
theorem replacement_failure_exits_silently (env : Env) (argc : Int) (argv : List String)
    (m c : String) (r : Int) (hargc : 3 ≤ argc) (hargv : (argv.length : Int) = argc)
    (hm : argv[1]? = some m) (hc : argv[2]? = some c)
    (hret : env.exec (Ptr.str c) (cmdArgs argv) = some r) :
    Event.getSysCount (env.atoi m) ∈ (run env argc argv).trace
      ∧ (∀ (argc2 : Int) (argv2 : List String), 3 ≤ argc2 → (argv2.length : Int) = argc2 →
          argv2[1]? = some m →
            (run env argc2 argv2).trace.filter isGetSysCount
              = (run env argc argv).trace.filter isGetSysCount)
      ∧ (0 ≤ env.getSysCount (env.atoi m) →
          (run env argc argv).outcome = some (Outcome.exited 0)
            ∧ ¬ reportsFailure (run env argc argv)) := by
  have hcalls := run_control_calls env argc argv m hargc hargv hm
  refine ⟨?_, ?_, ?_⟩
  · have hmem : Event.getSysCount (env.atoi m)
        ∈ (run env argc argv).trace.filter isGetSysCount := by
      rw [hcalls]; simp
    exact (List.mem_filter.mp hmem).1
  · intro argc2 argv2 h2 hlen2 hm2
    rw [hcalls, run_control_calls env argc2 argv2 m h2 hlen2 hm2]
  · intro hpos
    rw [run_exec env argc argv m c hargc hargv hm hc hpos, hret]
    refine ⟨rfl, ?_⟩
    rintro (⟨msg, hmsg⟩ | ⟨status, hstatus, hne⟩)
    · exact fprintf_not_mem_execTrace _ _ _ _ _ hmsg
    · simp only [Step.outcome, execOutcome, Option.some.injEq, Outcome.exited.injEq]
        at hstatus
      exact hne hstatus.symm

/-- The amended C6 at `syscount 99 nonexistent-binary`. -/
theorem replacement_failure_exits_silently_witness :
    Event.getSysCount (envExecFails.atoi "99")
        ∈ (run envExecFails 3 ["syscount", "99", "nonexistent-binary"]).trace
      ∧ (∀ (argc2 : Int) (argv2 : List String), 3 ≤ argc2 → (argv2.length : Int) = argc2 →
          argv2[1]? = some "99" →
            (run envExecFails argc2 argv2).trace.filter isGetSysCount
              = (run envExecFails 3 ["syscount", "99", "nonexistent-binary"]).trace.filter
                  isGetSysCount)
      ∧ (0 ≤ envExecFails.getSysCount (envExecFails.atoi "99") →
          (run envExecFails 3 ["syscount", "99", "nonexistent-binary"]).outcome
              = some (Outcome.exited 0)
            ∧ ¬ reportsFailure (run envExecFails 3 ["syscount", "99", "nonexistent-binary"])) :=
  replacement_failure_exits_silently envExecFails 3 ["syscount", "99", "nonexistent-binary"]
    "99" "nonexistent-binary" (-1) (by decide) (by decide) (by decide) (by decide) (by rfl)

/-! ## The Control Interface -/

/-- C7: the Control Interface has query-and-set semantics.  Called by a
process it installs the supplied mask in place of the old one, leaves the
counter table as it was, and returns the count matched under the previous
mask, which is not negative; its result is negative exactly when there is no
calling process.  The front end that runs on it takes its failure exit on a
well-formed invocation with `argc >= 3` exactly in that case. -/
theorem control_interface_query_and_set (proc : Option ProcessContext) (p : ProcessContext)
    (mask : Int) :
    (setCountingMask (some p) mask).1 = some { mask := mask, counters := p.counters }
      ∧ (setCountingMask (some p) mask).2 = (matchedCount p : Int)
      ∧ 0 ≤ (setCountingMask (some p) mask).2
      ∧ ((setCountingMask proc mask).2 < 0 ↔ proc = none)
      ∧ (∀ (atoi1 : String → Int) (exec1 : Ptr → List Cell → Option Int) (argc : Int)
          (argv : List String), 3 ≤ argc → (argv.length : Int) = argc →
            ((run (kernelEnv atoi1 exec1 proc) argc argv).outcome = some (Outcome.exited 1)
              ↔ proc = none)) := by
  refine ⟨rfl, rfl, ?_, ?_, ?_⟩
  · simp [setCountingMask]
  · cases proc with
    | none => simp [setCountingMask]
    | some q =>
      simp only [setCountingMask, reduceCtorEq, iff_false, not_lt]
      exact Int.natCast_nonneg _
  · intro atoi1 exec1 argc argv hargc hargv
    obtain ⟨a0, a1, a2, rest, hshape, _⟩ := argv_shape argc argv hargc hargv
    have hm : argv[1]? = some a1 := by rw [hshape]; simp
    have hc : argv[2]? = some a2 := by rw [hshape]; simp
    cases proc with
    | none =>
      rw [run_failed (kernelEnv atoi1 exec1 none) argc argv a1 hargc hargv hm
        (by simp [kernelEnv, setCountingMask])]
      simp [Step.outcome]
    | some q =>
      rw [run_exec (kernelEnv atoi1 exec1 (some q)) argc argv a1 a2 hargc hargv hm hc
        (by simp [kernelEnv, setCountingMask])]
      cases (kernelEnv atoi1 exec1 (some q)).exec (Ptr.str a2) (cmdArgs argv) <;>
        simp [Step.outcome, execOutcome]

end Syscount
